import Mathlib

/-!
Verification of the release resolution, version comparison, download
progress rendering, version ledger and install workflow implemented in
tools/setup_workspace.py, via a shallow embedding of its functions.

Python strings are modelled as lists of characters; machine integers are
Nat/Int; values that Python represents as possibly-None are Option; the
float arithmetic of the progress renderer is modelled over exact integer
fractions.
-/

namespace SetupWorkspace

/-- Python str.lower applied character by character. -/
def lowerStr (s : List Char) : List Char := s.map Char.toLower

/-- Python substring test: needle in haystack, scanning every suffix. -/
def isSubstr (needle haystack : List Char) : Bool :=
  haystack.tails.any (fun t => needle.isPrefixOf t)

/-- Python truthiness of an optional string: None and the empty string are falsy. -/
def falsy : Option (List Char) → Bool
  | none => true
  | some s => s.isEmpty

/-- Python expression a or b on optional strings: the left operand when truthy, else the right. -/
def pyOrStr (a b : Option (List Char)) : Option (List Char) :=
  if falsy a then b else a

/-- One release asset entry of the GitHub releases feed, as consumed by
get_latest_release_url: fields name and browser_download_url. -/
structure Asset where
  name : List Char
  browser_download_url : List Char
deriving DecidableEq

/-- One release tag entry of the GitHub releases feed: the fields read by
get_latest_release_url. tag_name and name are optional because the code
reads them with dict.get. -/
structure Tag where
  tag_name : Option (List Char)
  name : Option (List Char)
  prerelease : Bool
  draft : Bool
  assets : List Asset
deriving DecidableEq

/-- The skip condition of the tag loop in get_latest_release_url
(lines 130 to 134): not prerelease and tag.prerelease or tag.draft,
with Python precedence grouping the conjunction first. -/
def tag_skipped (prerelease : Bool) (t : Tag) : Bool :=
  (!prerelease && t.prerelease) || t.draft

/-- The asset filename test of get_latest_release_url line 141 to 142:
lower-case the filename once, then require every keyword, lower-cased,
to occur in it as a substring. -/
def matches_all_keywords (keywords : List (List Char)) (asset_name : List Char) : Bool :=
  let name := lowerStr asset_name
  keywords.all (fun k => isSubstr (lowerStr k) name)

/-- The inner asset loop of get_latest_release_url (lines 139 to 145):
first asset of the list whose filename matches every keyword. -/
def find_matching_asset (keywords : List (List Char)) : List Asset → Option Asset
  | [] => none
  | a :: rest =>
    if matches_all_keywords keywords a.name then some a
    else find_matching_asset keywords rest

/-- The displayed tag name of a selected tag, line 144:
tag.get with key tag_name, or-else tag.get with key name. -/
def tag_display_name (t : Tag) : Option (List Char) :=
  pyOrStr t.tag_name t.name

/-- The tag loop of get_latest_release_url (lines 128 to 145): iterate tags
in feed order, skip per tag_skipped, return the url, filename and tag name
of the first matching asset of the first eligible tag that has one. -/
def release_search (keywords : List (List Char)) (prerelease : Bool) :
    List Tag → Option (List Char × List Char × Option (List Char))
  | [] => none
  | t :: rest =>
    if tag_skipped prerelease t then release_search keywords prerelease rest
    else
      match find_matching_asset keywords t.assets with
      | some a => some (a.browser_download_url, a.name, tag_display_name t)
      | none => release_search keywords prerelease rest

/-- Companion to release_search that keeps the selected tag and asset,
used to state which tag the returned triple came from. -/
def select_release (keywords : List (List Char)) (prerelease : Bool) :
    List Tag → Option (Tag × Asset)
  | [] => none
  | t :: rest =>
    if tag_skipped prerelease t then select_release keywords prerelease rest
    else
      match find_matching_asset keywords t.assets with
      | some a => some (t, a)
      | none => select_release keywords prerelease rest

/-- The body of the try block of get_latest_release_url once the feed has
been fetched and parsed: an empty list raises ValueError (line 126), an
exhausted loop raises ValueError (line 147), a match returns the triple. -/
def release_body (keywords : List (List Char)) (prerelease : Bool) (tags : List Tag) :
    Except (List Char) (List Char × List Char × Option (List Char)) :=
  if tags.isEmpty then .error "No releases found (GitHub API)".data
  else
    match release_search keywords prerelease tags with
    | some r => .ok r
    | none => .error "No matching asset found in the latest release (GitHub API)".data

/-- get_latest_release_url (lines 101 to 151). The network fetch and JSON
parse are modelled by the fetch argument: none when the request or parse
raised. The except clause catches every exception of the body and returns
the triple of Nones, modelled as Option none. -/
def get_latest_release_url (keywords : List (List Char)) (prerelease : Bool)
    (fetch : Option (List Tag)) : Option (List Char × List Char × Option (List Char)) :=
  match fetch with
  | none => none
  | some tags =>
    match release_body keywords prerelease tags with
    | .ok r => some r
    | .error _ => none

/-- Modelled from the spec, section 4.2, for the refinement claim about
first-match resolution: iterate tags in feed order, skip a tag when
prerelease is disallowed and it is marked prerelease, or when it is marked
draft; within an eligible tag the first asset whose lower-cased filename
contains every lower-cased keyword as an infix wins immediately. -/
def resolve_spec (keywords : List (List Char)) (allowPrerelease : Bool) (tags : List Tag) :
    Option (List Char × List Char × Option (List Char)) :=
  tags.findSome? (fun t =>
    if (!allowPrerelease && t.prerelease) || t.draft then none
    else
      (t.assets.find? (fun a =>
        keywords.all (fun k => decide (lowerStr k <:+: lowerStr a.name)))).map
        (fun a => (a.browser_download_url, a.name, tag_display_name t)))

/-- Python str.strip: remove whitespace from both ends. -/
def pyStrip (s : List Char) : List Char :=
  ((s.dropWhile Char.isWhitespace).reverse.dropWhile Char.isWhitespace).reverse

/-- Decimal digit run to number, as Python int on a digit string. -/
def digitsToNat (ds : List Char) : Nat :=
  ds.foldl (fun n c => n * 10 + (c.toNat - 48)) 0

/-- parse_semver (lines 179 to 200): empty input gives the empty list;
otherwise strip whitespace, drop one leading v or V, truncate at the first
dash, split on dots, and map each part to its leading digit run as a
number, with 0 when the part has no leading digit. -/
def parse_semver (version : List Char) : List Nat :=
  if version.isEmpty then []
  else
    let v := pyStrip version
    let v := if v.headD ' ' = 'v' || v.headD ' ' = 'V' then v.drop 1 else v
    let v := if v.contains '-' then v.takeWhile (fun c => c ≠ '-') else v
    let parts := v.splitOn '.'
    parts.map (fun part =>
      let num := part.takeWhile Char.isDigit
      if num.isEmpty then 0 else digitsToNat num)

/-- The comparison loop of compare_semver lines 215 to 220: walk both lists
in lockstep, first strict inequality decides, exhaustion gives 0. -/
def cmpZip : List Nat → List Nat → Int
  | l :: ls, r :: rs =>
    if l > r then 1 else if l < r then -1 else cmpZip ls rs
  | _, _ => 0

/-- Right-padding with zeros to length n, as the list extensions of
compare_semver lines 213 to 214. -/
def padZeros (n : Nat) (l : List Nat) : List Nat :=
  l ++ List.replicate (n - l.length) 0

/-- Lines 212 to 220 of compare_semver: right-pad both parsed lists with
zeros to the larger length, then compare in lockstep. -/
def cmpPad (left right : List Nat) : Int :=
  let max_len := max left.length right.length
  cmpZip (padZeros max_len left) (padZeros max_len right)

/-- Modelled from the spec, section 4.1, for the comparison-rule claim:
pad both sequences on the right with zeros to equal length and compare
component-wise left to right; the first differing component decides, and
sequences with no differing component compare equal. -/
def cmp_componentwise (l r : List Nat) : Int :=
  match (List.range (max l.length r.length)).find?
      (fun i => l.getD i 0 != r.getD i 0) with
  | none => 0
  | some i => if r.getD i 0 < l.getD i 0 then 1 else -1

/-- compare_semver (lines 203 to 220). The arguments are optional strings;
the Python truthiness tests of lines 204 to 209 are falsy tests, and the
expression a or the empty string is getD. -/
def compare_semver (a b : Option (List Char)) : Int :=
  if falsy a && falsy b then 0
  else if !falsy a && falsy b then 1
  else if !falsy b && falsy a then -1
  else cmpPad (parse_semver (a.getD [])) (parse_semver (b.getD []))

/-- Outcome of one removal attempt inside the while-True loops of
install_maafw (shutil.rmtree, lines 341 to 358) and install_mxu
(Path.unlink, lines 434 to 451): success, PermissionError, or any other
exception. -/
inductive RemoveOutcome
  | ok
  | permErr
  | otherErr
deriving DecidableEq

/-- What one pass of the removal loop does once it terminates: break_ means
the removal succeeded and the install continues; ret carries the literal
return value of the enclosing install function. -/
inductive LoopStep
  | break_
  | ret (r : Bool × Option (List Char) × Bool)
deriving DecidableEq

/-- The operator prompt processing of lines 349 to 353: input, strip, lower. -/
def prompt_answer (cmd : List Char) : List Char :=
  lowerStr (pyStrip cmd)

/-- The removal retry loop shared in shape by install_maafw lines 341 to 358
and install_mxu lines 434 to 451. The successive removal attempt outcomes
and the successive operator inputs are given as finite scripts; the result
is none when both loops would still be running after the scripts are
exhausted. An ok attempt breaks out; any non-permission exception returns
the failure triple immediately; a PermissionError consumes one operator
input, returning the failure triple on q and retrying otherwise. -/
def removal_retry_loop (local_version : Option (List Char)) :
    List RemoveOutcome → List (List Char) → Option LoopStep
  | [], _ => none
  | .ok :: _, _ => some .break_
  | .otherErr :: _, _ => some (.ret (false, local_version, false))
  | .permErr :: _, [] => none
  | .permErr :: rest, cmd :: more =>
    if prompt_answer cmd = "q".data then some (.ret (false, local_version, false))
    else removal_retry_loop local_version rest more

/-- The network calls an install run can perform, in order. -/
inductive NetCall
  | fetch_releases
  | download_file_call
deriving DecidableEq

/-- The environment one install function runs against: the filesystem and
network facts it observes, plus the scripts driving the removal loop. -/
structure InstallEnv where
  installed : Bool
  dest_exists : Bool
  fetch : Option (List Tag)
  download_ok : Bool
  remove_outcomes : List RemoveOutcome
  user_inputs : List (List Char)
  unpack_ok : Bool
  payload_found : Bool

/-- install_maafw (lines 302 to 392), returning the result triple
(success, version, downloaded) paired with the list of network calls made,
or none when the removal loop never terminates. installed models the
existence test of line 311, dest_exists that of line 340, unpack_ok means
the try block of lines 361 to 389 raises no exception, payload_found means
the walk of lines 370 to 383 finds a bin directory. -/
def install_maafw (os_keyword arch_keyword : List Char)
    (skip_if_exist update_mode : Bool) (local_version : Option (List Char))
    (env : InstallEnv) :
    Option ((Bool × Option (List Char) × Bool) × List NetCall) :=
  if skip_if_exist && env.installed then
    some ((true, local_version, false), [])
  else
    match get_latest_release_url ["maa".data, os_keyword, arch_keyword] true env.fetch with
    | none => some ((false, local_version, false), [.fetch_releases])
    | some (url, filename, remote_version) =>
      if url.isEmpty || filename.isEmpty then
        some ((false, local_version, false), [.fetch_releases])
      else if update_mode && env.installed && !falsy local_version
          && !falsy remote_version
          && decide (0 ≤ compare_semver local_version remote_version) then
        some ((true, local_version, false), [.fetch_releases])
      else if !env.download_ok then
        some ((false, local_version, false), [.fetch_releases, .download_file_call])
      else
        let afterRemoval : Option (Option (Bool × Option (List Char) × Bool)) :=
          if env.dest_exists then
            match removal_retry_loop local_version env.remove_outcomes env.user_inputs with
            | none => none
            | some .break_ => some none
            | some (.ret r) => some (some r)
          else some none
        match afterRemoval with
        | none => none
        | some (some r) => some (r, [.fetch_releases, .download_file_call])
        | some none =>
          if !env.unpack_ok then
            some ((false, local_version, false), [.fetch_releases, .download_file_call])
          else if !env.payload_found then
            some ((false, local_version, false), [.fetch_releases, .download_file_call])
          else
            some ((true, pyOrStr remote_version local_version, true),
              [.fetch_releases, .download_file_call])

/-- install_mxu (lines 395 to 482), same shape as install_maafw: installed
models line 404, dest_exists line 433, unpack_ok the try block of lines 454
to 479, payload_found the copied flag of lines 466 to 473. -/
def install_mxu (os_keyword arch_keyword : List Char)
    (skip_if_exist update_mode : Bool) (local_version : Option (List Char))
    (env : InstallEnv) :
    Option ((Bool × Option (List Char) × Bool) × List NetCall) :=
  if skip_if_exist && env.installed then
    some ((true, local_version, false), [])
  else
    match get_latest_release_url ["mxu".data, os_keyword, arch_keyword] true env.fetch with
    | none => some ((false, local_version, false), [.fetch_releases])
    | some (url, filename, remote_version) =>
      if url.isEmpty || filename.isEmpty then
        some ((false, local_version, false), [.fetch_releases])
      else if update_mode && env.installed && !falsy local_version
          && !falsy remote_version
          && decide (0 ≤ compare_semver local_version remote_version) then
        some ((true, local_version, false), [.fetch_releases])
      else if !env.download_ok then
        some ((false, local_version, false), [.fetch_releases, .download_file_call])
      else
        let afterRemoval : Option (Option (Bool × Option (List Char) × Bool)) :=
          if env.dest_exists then
            match removal_retry_loop local_version env.remove_outcomes env.user_inputs with
            | none => none
            | some .break_ => some none
            | some (.ret r) => some (some r)
          else some none
        match afterRemoval with
        | none => none
        | some (some r) => some (r, [.fetch_releases, .download_file_call])
        | some none =>
          if !env.unpack_ok then
            some ((false, local_version, false), [.fetch_releases, .download_file_call])
          else if !env.payload_found then
            some ((false, local_version, false), [.fetch_releases, .download_file_call])
          else
            some ((true, pyOrStr remote_version local_version, true),
              [.fetch_releases, .download_file_call])

/-- Decimal rendering of an integer, as Python str on an int. -/
def intToStr (n : Int) : List Char :=
  if n < 0 then '-' :: Nat.toDigits 10 n.natAbs else Nat.toDigits 10 n.toNat

/-- An exact signed fraction num / den with positive denominator, modelling
the float values of the progress renderer without rounding error. -/
structure Frac where
  num : Int
  den : Nat
deriving DecidableEq

/-- Rendering of a nonnegative exact fraction num / den with one decimal
digit, modelling the Python format specifier .1f (the tie at a half is
rounded up; the underlying value is exact, not a binary float). -/
def fmt1 (num den : Nat) : List Char :=
  let n : Nat := (20 * num + den) / (2 * den)
  Nat.toDigits 10 (n / 10) ++ ('.' :: Nat.toDigits 10 (n % 10))

/-- The unit loop of to_file_size lines 233 to 236: divide by 1024 until
the value drops below 1024 or the terabyte unit is reached. The running
float s is the exact fraction num / den, so dividing s by 1024 multiplies
den by 1024. -/
def to_file_size_loop (num den : Nat) : List (List Char) → List Char
  | [] => "--".data
  | unit :: rest =>
    if num < 1024 * den ∨ unit = "TB".data then fmt1 num den ++ (' ' :: unit)
    else to_file_size_loop num (den * 1024) rest

/-- to_file_size (lines 229 to 237): None or a negative size renders as the
placeholder dashes, otherwise the size is scaled through binary units. -/
def to_file_size (size : Option Int) : List Char :=
  match size with
  | none => "--".data
  | some n =>
    if n < 0 then "--".data
    else to_file_size_loop n.toNat 1
      ["B".data, "KB".data, "MB".data, "GB".data, "TB".data]

/-- Zero-padded two-digit rendering, modelling the format specifier 02d. -/
def pad2 (n : Nat) : List Char :=
  if n < 10 then '0' :: Nat.toDigits 10 n else Nat.toDigits 10 n

/-- seconds_to_hms (lines 249 to 256): None or a negative value renders as
the placeholder, otherwise truncate to whole seconds and render HH:MM:SS.
The float argument is an exact fraction with positive denominator, so it
is negative exactly when its numerator is. -/
def seconds_to_hms (sec : Option Frac) : List Char :=
  match sec with
  | none => "--:--:--".data
  | some f =>
    if f.num < 0 then "--:--:--".data
    else
      let n : Nat := f.num.toNat / f.den
      let h := n / 3600
      let m := (n % 3600) / 60
      let s := n % 60
      pad2 h ++ (':' :: (pad2 m ++ (':' :: pad2 s)))

/-- Line 265 of download_file: size_total is int of the Content-Length
header defaulted to 0, with the or 0 turning an empty header value into 0.
The header value, when present, is modelled as a decimal digit string. -/
def content_length_to_size_total (header : Option (List Char)) : Int :=
  match header with
  | none => 0
  | some s => if s.isEmpty then 0 else (digitsToNat (pyStrip s) : Int)

/-- Lines 279 to 281 of download_file: the ETA is only computed when the
total size and the measured speed are both positive, and is otherwise left
as None. The speed size_received / elapsed is the exact fraction
speed_num / speed_den, so the ETA (size_total - size_received) / speed is
the fraction below. -/
def compute_eta (size_total : Int) (size_received : Nat)
    (speed_num speed_den : Nat) : Option Frac :=
  if 0 < size_total ∧ 0 < speed_num then
    some ⟨(size_total - (size_received : Int)) * speed_den, speed_num⟩
  else none

/-- A parsed JSON value as produced by json.load, with numbers modelled as
integers. -/
inductive JValue
  | jnull
  | jbool (b : Bool)
  | jnum (n : Int)
  | jstr (s : List Char)
  | jarr (xs : List JValue)
  | jobj (fields : List (List Char × JValue))

/-- The observable state of the version file: absent, unreadable or
unparsable (open or json.load raises), or parsed to a JSON value. -/
inductive FileState
  | missing
  | unreadable
  | parsed (v : JValue)

/-- Python repr of a JSON-decoded value, used for values nested inside a
container when the container is stringified: strings render quoted (escape
handling elided), scalars as their Python text, containers in display
form, numbers as integers. -/
def pyRepr : JValue → List Char
  | .jnull => "None".data
  | .jbool b => if b then "True".data else "False".data
  | .jnum n => intToStr n
  | .jstr s => Char.ofNat 39 :: (s ++ [Char.ofNat 39])
  | .jarr xs =>
    Char.ofNat 91 ::
      (List.intercalate ", ".data (xs.attach.map (fun ⟨x, hx⟩ => pyRepr x)) ++ [Char.ofNat 93])
  | .jobj fs =>
    Char.ofNat 123 ::
      (List.intercalate ", ".data (fs.attach.map (fun ⟨(k, v), hkv⟩ =>
        (Char.ofNat 39 :: (k ++ [Char.ofNat 39])) ++ (": ".data ++ pyRepr v))) ++ [Char.ofNat 125])
decreasing_by
  · have h1 := List.sizeOf_lt_of_mem hx
    simp only [Prod.mk.sizeOf_spec, JValue.jarr.sizeOf_spec] at h1 ⊢
    omega
  · have h1 := List.sizeOf_lt_of_mem hkv
    simp only [Prod.mk.sizeOf_spec, JValue.jobj.sizeOf_spec] at h1 ⊢
    omega

/-- Python str applied to a JSON-decoded value, as the dict comprehension
of read_versions_file line 162 does to keys and values: a string passes
through unchanged, anything else renders as its repr. -/
def pyStr : JValue → List Char
  | .jstr s => s
  | v => pyRepr v

/-- Python dict.get on an association list decoded from JSON (keys unique). -/
def lookupField (fields : List (List Char × JValue)) (key : List Char) : Option JValue :=
  (fields.find? (fun kv => kv.1 = key)).map (fun kv => kv.2)

/-- read_versions_file (lines 154 to 165) over the observable file state:
a missing file returns the empty mapping; an unreadable or unparsable file
raises inside the try and is caught, returning the empty mapping; a parsed
non-object raises AttributeError at data.get, caught likewise; a parsed
object looks up the versions entry defaulted to an empty object, and when
that entry is an object returns it with keys and values passed through
Python str, otherwise falls through to the empty mapping. -/
def read_versions_file : FileState → List (List Char × List Char)
  | .missing => []
  | .unreadable => []
  | .parsed (.jobj fields) =>
    match (lookupField fields "versions".data).getD (.jobj []) with
    | .jobj vs => vs.map (fun kv => (kv.1, pyStr kv.2))
    | _ => []
  | .parsed _ => []

theorem cmpZip_self (l : List Nat) : cmpZip l l = 0 := by
  induction l with
  | nil => rfl
  | cons a as ih => simp [cmpZip, ih]

theorem cmpZip_swap (u : List Nat) : ∀ v : List Nat, cmpZip u v = -cmpZip v u := by
  induction u with
  | nil => intro v; cases v <;> rfl
  | cons a as ih =>
    intro v
    cases v with
    | nil => rfl
    | cons b bs =>
      simp only [cmpZip]
      split_ifs <;> first | omega | exact ih bs

theorem cmpZip_append_replicate (u : List Nat) :
    ∀ (v : List Nat) (k : Nat), u.length = v.length →
      cmpZip (u ++ List.replicate k 0) (v ++ List.replicate k 0) = cmpZip u v := by
  induction u with
  | nil =>
    intro v k h
    have hv : v = [] := List.length_eq_zero.mp (by simp at h; omega)
    subst hv
    simp only [List.nil_append]
    rw [cmpZip_self]
    rfl
  | cons a as ih =>
    intro v k h
    cases v with
    | nil => simp at h
    | cons b bs =>
      simp only [List.cons_append, cmpZip, List.append_eq]
      rw [ih bs k (by simpa using h)]

theorem padZeros_length (n : Nat) (l : List Nat) (h : l.length ≤ n) :
    (padZeros n l).length = n := by
  simp [padZeros]
  omega

theorem padZeros_eq_append (m n : Nat) (l : List Nat) (h1 : l.length ≤ m) (h2 : m ≤ n) :
    padZeros n l = padZeros m l ++ List.replicate (n - m) 0 := by
  simp only [padZeros, List.append_assoc, ← List.replicate_add]
  congr 2
  omega

theorem cmpZip_padZeros (l r : List Nat) (n : Nat) (h : max l.length r.length ≤ n) :
    cmpZip (padZeros n l) (padZeros n r) = cmpPad l r := by
  have hl : l.length ≤ max l.length r.length := Nat.le_max_left _ _
  have hr : r.length ≤ max l.length r.length := Nat.le_max_right _ _
  rw [padZeros_eq_append (max l.length r.length) n l hl h,
    padZeros_eq_append (max l.length r.length) n r hr h,
    cmpZip_append_replicate _ _ _ (by rw [padZeros_length _ _ hl, padZeros_length _ _ hr])]
  rfl

theorem cmpZip_trans (u : List Nat) : ∀ v w : List Nat,
    u.length = v.length → v.length = w.length →
    0 ≤ cmpZip u v → 0 ≤ cmpZip v w → 0 ≤ cmpZip u w := by
  induction u with
  | nil =>
    intro v w hv hw _ _
    have : w = [] := List.length_eq_zero.mp (by simp at hv; omega)
    subst this
    simp [cmpZip]
  | cons a as ih =>
    intro v w hv hw h1 h2
    cases v with
    | nil => simp at hv
    | cons b bs =>
      cases w with
      | nil => simp at hw
      | cons c cs =>
        simp only [cmpZip] at h1 h2 ⊢
        split_ifs at h1 h2 ⊢ <;>
          first
          | omega
          | exact ih bs cs (by simpa using hv) (by simpa using hw) h1 h2

theorem replicate_getD (k i : Nat) : (List.replicate k (0 : Nat)).getD i 0 = 0 := by
  rcases Nat.lt_or_ge i k with h | h
  · rw [List.getD_eq_getElem?_getD, List.getElem?_replicate, if_pos h]
    rfl
  · rw [List.getD_eq_default]
    simpa using h

theorem padZeros_getD (n : Nat) (l : List Nat) (i : Nat) :
    (padZeros n l).getD i 0 = l.getD i 0 := by
  unfold padZeros
  rcases Nat.lt_or_ge i l.length with h | h
  · rw [List.getD_append _ _ _ _ h]
  · rw [List.getD_eq_default _ _ h, List.getD_append_right _ _ _ _ h, replicate_getD]

theorem cmpZip_eq_find (u : List Nat) : ∀ v : List Nat, u.length = v.length →
    cmpZip u v =
      (match (List.range u.length).find? (fun i => u.getD i 0 != v.getD i 0) with
      | none => 0
      | some i => if v.getD i 0 < u.getD i 0 then 1 else -1) := by
  induction u with
  | nil =>
    intro v _
    simp [cmpZip, List.range_zero]
  | cons a as ih =>
    intro v h
    cases v with
    | nil => simp at h
    | cons b bs =>
      have ihb := ih bs (by simpa using h)
      simp only [List.length_cons, List.range_succ_eq_map, List.find?_cons]
      by_cases hab : a = b
      · subst hab
        have hp : ((a :: as).getD 0 0 != (a :: bs).getD 0 0) = false := by simp
        rw [hp]
        rw [List.find?_map]
        have hpred : ((fun i => (a :: as).getD i 0 != (a :: bs).getD i 0) ∘ Nat.succ)
            = (fun i => as.getD i 0 != bs.getD i 0) := by
          funext i
          simp [List.getD_cons_succ]
        rw [hpred]
        rcases hf : (List.range as.length).find? (fun i => as.getD i 0 != bs.getD i 0)
            with _ | i
        · rw [hf] at ihb
          simpa [cmpZip] using ihb
        · rw [hf] at ihb
          simp only [Option.map_some']
          simpa [cmpZip, List.getD_cons_succ] using ihb
      · have hp : ((a :: as).getD 0 0 != (b :: bs).getD 0 0) = true := by
          simpa using hab
        rw [hp]
        simp only [cmpZip, List.getD_cons_zero]
        rcases Nat.lt_trichotomy a b with hl | hl | hl
        · rw [if_neg (by omega), if_pos hl, if_neg (by omega)]
        · exact absurd hl hab
        · rw [if_pos hl, if_pos hl]

theorem cmpPad_eq_componentwise (l r : List Nat) :
    cmpPad l r = cmp_componentwise l r := by
  set m := max l.length r.length with hm
  have hl : l.length ≤ m := Nat.le_max_left _ _
  have hr : r.length ≤ m := Nat.le_max_right _ _
  have h1 : (padZeros m l).length = m := padZeros_length _ _ hl
  have h2 : (padZeros m r).length = m := padZeros_length _ _ hr
  have key := cmpZip_eq_find (padZeros m l) (padZeros m r) (by rw [h1, h2])
  rw [cmpPad]
  rw [key, cmp_componentwise]
  simp only [padZeros_getD, h1, ← hm]

theorem cmpPad_self (l : List Nat) : cmpPad l l = 0 := by
  rw [cmpPad]
  exact cmpZip_self _

theorem cmpPad_swap (l r : List Nat) : cmpPad l r = -cmpPad r l := by
  rw [cmpPad, cmpPad, cmpZip_swap, Nat.max_comm]

theorem cmpPad_trans (l r s : List Nat) (h1 : 0 ≤ cmpPad l r) (h2 : 0 ≤ cmpPad r s) :
    0 ≤ cmpPad l s := by
  set n := max l.length (max r.length s.length) with hn
  have hl : l.length ≤ n := Nat.le_max_left _ _
  have hr : r.length ≤ n := le_trans (Nat.le_max_left _ _) (Nat.le_max_right _ _)
  have hs : s.length ≤ n := le_trans (Nat.le_max_right _ _) (Nat.le_max_right _ _)
  rw [← cmpZip_padZeros l r n (by omega)] at h1
  rw [← cmpZip_padZeros r s n (by omega)] at h2
  rw [← cmpZip_padZeros l s n (by omega)]
  exact cmpZip_trans _ _ _
    (by rw [padZeros_length _ _ hl, padZeros_length _ _ hr])
    (by rw [padZeros_length _ _ hr, padZeros_length _ _ hs]) h1 h2

theorem falsy_some_eq_false {s : List Char} (h : s ≠ []) : falsy (some s) = false := by
  cases s with
  | nil => exact absurd rfl h
  | cons c cs => rfl

/-- C4: compare_semver implements the stated comparison rules: for present
strings both parsed sequences are right-padded with zeros to equal length
and compared component-wise numerically left to right with the first
differing component deciding; an absent value against a present one makes
the present one greater, both absent compare equal; and the four concrete
examples of the claim hold. -/
theorem compare_semver_spec :
    compare_semver none none = 0 ∧
    compare_semver (some "1.0.0".data) none = 1 ∧
    compare_semver none (some "1.0.0".data) = -1 ∧
    compare_semver (some "1.10.0".data) (some "1.9.9".data) = 1 ∧
    (∀ s : List Char, s ≠ [] →
      compare_semver (some s) none = 1 ∧ compare_semver none (some s) = -1) ∧
    (∀ s t : List Char, s ≠ [] → t ≠ [] →
      compare_semver (some s) (some t)
        = cmp_componentwise (parse_semver s) (parse_semver t)) := by
  refine ⟨by decide, by decide, by decide, by decide, ?_, ?_⟩
  · intro s hs
    constructor <;> simp [compare_semver, falsy_some_eq_false hs, falsy, hs]
  · intro s t hs ht
    rw [compare_semver]
    simp only [falsy_some_eq_false hs, falsy_some_eq_false ht, Bool.false_and,
      Bool.and_false, Bool.not_false, Bool.true_and, if_false, Option.getD_some]
    exact cmpPad_eq_componentwise _ _

/-- Witness for compare_semver_spec at concrete inputs. -/
theorem compare_semver_spec_witness :
    compare_semver (some "2".data) none = 1 ∧
    compare_semver (some "1.2".data) (some "1.2.0".data)
      = cmp_componentwise (parse_semver "1.2".data) (parse_semver "1.2.0".data) := by
  refine ⟨(compare_semver_spec.2.2.2.2.1 "2".data (by decide)).1,
    compare_semver_spec.2.2.2.2.2 "1.2".data "1.2.0".data (by decide) (by decide)⟩

/-- C5: compare_semver is antisymmetric, reflexive and transitive; this
holds for every pair of optional strings, in particular for all well-formed
dotted numeric version strings. -/
theorem compare_semver_order_laws :
    (∀ a b, compare_semver a b = -compare_semver b a) ∧
    (∀ a, compare_semver a a = 0) ∧
    (∀ a b c, 0 ≤ compare_semver a b → 0 ≤ compare_semver b c →
      0 ≤ compare_semver a c) := by
  refine ⟨?_, ?_, ?_⟩
  · intro a b
    cases hfa : falsy a <;> cases hfb : falsy b <;>
      simp [compare_semver, hfa, hfb, cmpPad_swap (parse_semver (a.getD []))]
  · intro a
    cases hfa : falsy a <;> simp [compare_semver, hfa, cmpPad_self]
  · intro a b c h1 h2
    cases hfa : falsy a <;> cases hfb : falsy b <;> cases hfc : falsy c <;>
      simp [compare_semver, hfa, hfb, hfc] at h1 h2 ⊢ <;>
      first
      | omega
      | exact cmpPad_trans _ _ _ h1 h2

/-- Witness for compare_semver_order_laws: transitivity applied at concrete
version strings. -/
theorem compare_semver_order_laws_witness :
    0 ≤ compare_semver (some "1.3".data) (some "1.2.9".data) ∧
    0 ≤ compare_semver (some "1.2.9".data) (some "1.2".data) ∧
    0 ≤ compare_semver (some "1.3".data) (some "1.2".data) :=
  ⟨by decide, by decide,
    compare_semver_order_laws.2.2 (some "1.3".data) (some "1.2.9".data)
      (some "1.2".data) (by decide) (by decide)⟩

/-- C10: compare_semver treats the empty string exactly like an absent
value: empty versus empty is 0, a nonempty version beats the empty string
on either side, and the empty string against None compares equal both
ways. -/
theorem compare_semver_empty_like_absent :
    compare_semver (some []) (some []) = 0 ∧
    compare_semver (some "1.0.0".data) (some []) = 1 ∧
    compare_semver (some []) (some "1.0.0".data) = -1 ∧
    compare_semver (some []) none = 0 ∧
    compare_semver none (some []) = 0 := by decide

/-- C3: in the removal retry loops of install_maafw and install_mxu, a
non-permission exception returns the failure triple immediately without
consuming any operator input; on a permission error the operator input q,
after trimming and lower-casing, returns the failure triple, and any other
input retries the removal with the remaining scripts. -/
theorem removal_retry_loop_policy :
    ∀ (local_version : Option (List Char)) (rest : List RemoveOutcome)
      (inputs : List (List Char)) (cmd : List Char),
      removal_retry_loop local_version (.otherErr :: rest) inputs
        = some (.ret (false, local_version, false)) ∧
      (prompt_answer cmd = "q".data →
        removal_retry_loop local_version (.permErr :: rest) (cmd :: inputs)
          = some (.ret (false, local_version, false))) ∧
      (prompt_answer cmd ≠ "q".data →
        removal_retry_loop local_version (.permErr :: rest) (cmd :: inputs)
          = removal_retry_loop local_version rest inputs) := by
  intro local_version rest inputs cmd
  refine ⟨rfl, ?_, ?_⟩ <;> intro h <;> simp [removal_retry_loop, h]

/-- Witness for removal_retry_loop_policy: the abort input and a retry
input, at concrete scripts. -/
theorem removal_retry_loop_policy_witness :
    removal_retry_loop none [.otherErr] [] = some (.ret (false, none, false)) ∧
    removal_retry_loop none [.permErr] [" Q ".data] = some (.ret (false, none, false)) ∧
    removal_retry_loop none [.permErr, .ok] ["retry".data] = removal_retry_loop none [.ok] [] :=
  ⟨(removal_retry_loop_policy none [] [] []).1,
    (removal_retry_loop_policy none [] [] " Q ".data).2.1 (by decide),
    (removal_retry_loop_policy none [.ok] [] "retry".data).2.2 (by decide)⟩

/-- C9 counterexample: when the Content-Length header is absent, the total
size variable is 0 and the total-size field of the progress line renders as
0.0 B, not as the placeholder dashes the claim states. -/
theorem unknown_total_size_renders_zero_bytes :
    to_file_size (some (content_length_to_size_total none)) = "0.0 B".data ∧
    to_file_size (some (content_length_to_size_total none)) ≠ "--".data := by
  decide

/-- C9 as amended: an unknown ETA renders as the placeholder, and in
particular the ETA stays unknown whenever the Content-Length header is
absent; to_file_size renders the placeholder only for None or a negative
size, and the absent Content-Length header is coerced to total size 0,
which renders as 0.0 B. -/
theorem progress_placeholder_rendering :
    seconds_to_hms none = "--:--:--".data ∧
    (∀ (received spd_num spd_den : Nat),
      seconds_to_hms
        (compute_eta (content_length_to_size_total none) received spd_num spd_den)
        = "--:--:--".data) ∧
    to_file_size none = "--".data ∧
    (∀ n : Int, n < 0 → to_file_size (some n) = "--".data) ∧
    to_file_size (some (content_length_to_size_total none)) = "0.0 B".data := by
  refine ⟨rfl, ?_, rfl, ?_, by decide⟩
  · intro received spd_num spd_den
    simp [compute_eta, content_length_to_size_total, seconds_to_hms]
  · intro n h
    simp [to_file_size, h]

/-- Witness for progress_placeholder_rendering at concrete inputs. -/
theorem progress_placeholder_rendering_witness :
    seconds_to_hms (compute_eta (content_length_to_size_total none) 4096 512 1)
      = "--:--:--".data ∧
    to_file_size (some (-1)) = "--".data :=
  ⟨progress_placeholder_rendering.2.1 4096 512 1,
    progress_placeholder_rendering.2.2.2.1 (-1) (by decide)⟩

/-- C7: with skip_if_exist set and the artifact already installed, both
install functions return success with the unchanged local version and a
downloaded flag of False, and the list of network calls performed is
empty: neither the release feed fetch nor the file download happens. -/
theorem install_skip_if_exist_short_circuit :
    ∀ (os_kw arch_kw : List Char) (update_mode : Bool)
      (local_version : Option (List Char)) (env : InstallEnv),
      env.installed = true →
      install_maafw os_kw arch_kw true update_mode local_version env
        = some ((true, local_version, false), []) ∧
      install_mxu os_kw arch_kw true update_mode local_version env
        = some ((true, local_version, false), []) := by
  intro os_kw arch_kw update_mode local_version env h
  constructor <;> simp [install_maafw, install_mxu, h]

/-- Witness for install_skip_if_exist_short_circuit at a concrete
environment whose feed would otherwise yield a download. -/
theorem install_skip_if_exist_short_circuit_witness :
    install_maafw "win".data "x86_64".data true false (some "v1.0".data)
      ⟨true, true, some [], true, [.ok], [], true, true⟩
      = some ((true, some "v1.0".data, false), []) ∧
    install_mxu "win".data "x86_64".data true false (some "v1.0".data)
      ⟨true, true, some [], true, [.ok], [], true, true⟩
      = some ((true, some "v1.0".data, false), []) :=
  install_skip_if_exist_short_circuit "win".data "x86_64".data false
    (some "v1.0".data) ⟨true, true, some [], true, [.ok], [], true, true⟩ rfl

/-- C8: read_versions_file is total over every observable file state and
returns the empty mapping when the file is missing, when its content is
unreadable or unparsable, when the parsed top level is not an object, and
when the versions entry is present but not an object; when the versions
entry is an object, the result is that object with every key kept as its
string and every value coerced through Python str, so every key and value
of a non-empty result is a string. -/
theorem read_versions_file_robust :
    read_versions_file .missing = [] ∧
    read_versions_file .unreadable = [] ∧
    (∀ v : JValue, (∀ fields, v ≠ .jobj fields) →
      read_versions_file (.parsed v) = []) ∧
    (∀ fields, (∀ vs, (lookupField fields "versions".data).getD (.jobj []) ≠ .jobj vs) →
      read_versions_file (.parsed (.jobj fields)) = []) ∧
    (∀ fields vs, (lookupField fields "versions".data).getD (.jobj []) = .jobj vs →
      read_versions_file (.parsed (.jobj fields))
        = vs.map (fun kv => (kv.1, pyStr kv.2))) := by
  refine ⟨rfl, rfl, ?_, ?_, ?_⟩
  · intro v hv
    cases v with
    | jobj fields => exact absurd rfl (hv fields)
    | jnull => rfl
    | jbool b => rfl
    | jnum n => rfl
    | jstr s => rfl
    | jarr xs => rfl
  · intro fields hv
    show (match (lookupField fields "versions".data).getD (.jobj []) with
      | .jobj vs => vs.map (fun kv => (kv.1, pyStr kv.2))
      | _ => []) = []
    rcases h : (lookupField fields "versions".data).getD (.jobj []) with _ | b | n | s | xs | vs
    · rfl
    · rfl
    · rfl
    · rfl
    · rfl
    · exact absurd h (hv vs)
  · intro fields vs h
    show (match (lookupField fields "versions".data).getD (.jobj []) with
      | .jobj vs => vs.map (fun kv => (kv.1, pyStr kv.2))
      | _ => []) = vs.map (fun kv => (kv.1, pyStr kv.2))
    rw [h]

/-- Witness for read_versions_file_robust: a parsed list top level, a
versions entry holding a string, and a proper versions object. -/
theorem read_versions_file_robust_witness :
    read_versions_file (.parsed (.jarr [])) = [] ∧
    read_versions_file (.parsed (.jobj [("versions".data, .jstr "x".data)])) = [] ∧
    read_versions_file
        (.parsed (.jobj [("versions".data,
          .jobj [("maafw".data, .jstr "v1.2".data), ("mxu".data, .jnum 3)])]))
      = [("maafw".data, "v1.2".data), ("mxu".data, "3".data)] := by
  refine ⟨read_versions_file_robust.2.2.1 (.jarr []) (by intro fields h; cases h), ?_, ?_⟩
  · have := read_versions_file_robust.2.2.2.1
      [("versions".data, .jstr "x".data)] (by intro vs h; simp [lookupField] at h)
    exact this
  · have := read_versions_file_robust.2.2.2.2
      [("versions".data,
        .jobj [("maafw".data, .jstr "v1.2".data), ("mxu".data, .jnum 3)])]
      [("maafw".data, .jstr "v1.2".data), ("mxu".data, .jnum 3)]
      (by simp [lookupField])
    rw [this]
    simp [pyStr, pyRepr, intToStr]
    decide

theorem isSubstr_iff (n h : List Char) : isSubstr n h = true ↔ n <:+: h := by
  unfold isSubstr
  rw [List.any_eq_true]
  constructor
  · rintro ⟨t, ht, hp⟩
    rw [List.mem_tails] at ht
    rw [ List.isPrefixOf_iff_prefix] at hp
    obtain ⟨u, hu⟩ := ht
    obtain ⟨w, hw⟩ := hp
    exact ⟨u, w, by rw [List.append_assoc, hw, hu]⟩
  · rintro ⟨s, t, hst⟩
    refine ⟨n ++ t, ?_, ?_⟩
    · rw [List.mem_tails]
      exact ⟨s, by rw [← List.append_assoc, hst]⟩
    · rw [ List.isPrefixOf_iff_prefix]
      exact ⟨t, rfl⟩

theorem matches_all_keywords_eq (kw : List (List Char)) (name : List Char) :
    matches_all_keywords kw name
      = kw.all (fun k => decide (lowerStr k <:+: lowerStr name)) := by
  simp only [matches_all_keywords]
  congr 1
  funext k
  cases hb : isSubstr (lowerStr k) (lowerStr name)
  · have hni : ¬ (lowerStr k <:+: lowerStr name) := by
      intro hI
      rw [(isSubstr_iff _ _).mpr hI] at hb
      cases hb
    simp [hni]
  · simp [(isSubstr_iff _ _).mp hb]

theorem find_matching_asset_eq (kw : List (List Char)) (l : List Asset) :
    find_matching_asset kw l
      = l.find? (fun a => kw.all (fun k => decide (lowerStr k <:+: lowerStr a.name))) := by
  induction l with
  | nil => rfl
  | cons a rest ih =>
    cases hm : matches_all_keywords kw a.name
    · rw [find_matching_asset, if_neg (by simp [hm]), ih,
        List.find?_cons_of_neg _ (by rw [← matches_all_keywords_eq]; simp [hm])]
    · rw [find_matching_asset, if_pos (by simp [hm]),
        List.find?_cons_of_pos _ (by rw [← matches_all_keywords_eq]; simp [hm])]

theorem release_search_eq_select (kw : List (List Char)) (pre : Bool) :
    ∀ tags : List Tag,
      release_search kw pre tags = (select_release kw pre tags).map
        (fun p => (p.2.browser_download_url, p.2.name, tag_display_name p.1)) := by
  intro tags
  induction tags with
  | nil => rfl
  | cons t rest ih =>
    rw [release_search, select_release]
    by_cases hs : tag_skipped pre t = true
    · rw [if_pos hs, if_pos hs, ih]
    · rw [if_neg hs, if_neg hs]
      cases hf : find_matching_asset kw t.assets with
      | none => exact ih
      | some a => rfl

theorem select_release_not_draft (kw : List (List Char)) (pre : Bool) :
    ∀ (tags : List Tag) (t : Tag) (a : Asset),
      select_release kw pre tags = some (t, a) → t.draft = false := by
  intro tags
  induction tags with
  | nil => intro t a h; cases h
  | cons u rest ih =>
    intro t a h
    rw [select_release] at h
    by_cases hs : tag_skipped pre u = true
    · rw [if_pos hs] at h
      exact ih t a h
    · rw [if_neg hs] at h
      cases hf : find_matching_asset kw u.assets with
      | none =>
        rw [hf] at h
        exact ih t a h
      | some b =>
        rw [hf] at h
        have hfalse : tag_skipped pre u = false := by simpa using hs
        have hdraft : u.draft = false := by
          rcases Bool.or_eq_false_iff.mp hfalse with ⟨_, hd⟩
          exact hd
        injection h with h2
        have hut : u = t := congrArg Prod.fst h2
        rw [← hut]
        exact hdraft

/-- C1: a tag of the feed is skipped exactly when prereleases are
disallowed and the tag is marked prerelease, or when the tag is marked
draft; the returned triple always comes from a selected tag and asset, a
selected tag is never a draft whatever the prerelease flag, and with
prereleases allowed a non-draft tag is never skipped, so a non-draft
prerelease tag carrying a matching asset is selected when it is reached. -/
theorem get_latest_release_url_skip_policy :
    (∀ (prerelease : Bool) (t : Tag),
      tag_skipped prerelease t = true ↔
        ((prerelease = false ∧ t.prerelease = true) ∨ t.draft = true)) ∧
    (∀ keywords prerelease tags,
      release_search keywords prerelease tags
        = (select_release keywords prerelease tags).map
          (fun p => (p.2.browser_download_url, p.2.name, tag_display_name p.1))) ∧
    (∀ keywords prerelease tags (t : Tag) (a : Asset),
      select_release keywords prerelease tags = some (t, a) → t.draft = false) ∧
    (∀ t : Tag, t.draft = false → tag_skipped true t = false) ∧
    (∀ keywords (t : Tag) (rest : List Tag) (a : Asset), t.draft = false →
      find_matching_asset keywords t.assets = some a →
      select_release keywords true (t :: rest) = some (t, a)) := by
  refine ⟨?_, ?_, ?_, ?_, ?_⟩
  · intro pre t
    cases pre <;> simp [tag_skipped]
  · intro kw pre tags
    exact release_search_eq_select kw pre tags
  · intro kw pre tags t a h
    exact select_release_not_draft kw pre tags t a h
  · intro t h
    simp [tag_skipped, h]
  · intro kw t rest a hd hf
    rw [select_release, if_neg (by simp [tag_skipped, hd]), hf]

/-- Witness for get_latest_release_url_skip_policy: a non-draft prerelease
tag with a matching asset at the head of the feed is selected when
prereleases are allowed, and the selected tag is not a draft. -/
theorem get_latest_release_url_skip_policy_witness :
    select_release ["maa".data] true
        [⟨some "v1".data, none, true, false, [⟨"maa-win.zip".data, "u".data⟩]⟩]
      = some (⟨some "v1".data, none, true, false, [⟨"maa-win.zip".data, "u".data⟩]⟩,
          ⟨"maa-win.zip".data, "u".data⟩) ∧
    Tag.draft ⟨some "v1".data, none, true, false, [⟨"maa-win.zip".data, "u".data⟩]⟩ = false :=
  ⟨get_latest_release_url_skip_policy.2.2.2.2 ["maa".data]
      ⟨some "v1".data, none, true, false, [⟨"maa-win.zip".data, "u".data⟩]⟩ []
      ⟨"maa-win.zip".data, "u".data⟩ rfl (by decide),
    get_latest_release_url_skip_policy.2.2.1 ["maa".data] true
      [⟨some "v1".data, none, true, false, [⟨"maa-win.zip".data, "u".data⟩]⟩]
      ⟨some "v1".data, none, true, false, [⟨"maa-win.zip".data, "u".data⟩]⟩
      ⟨"maa-win.zip".data, "u".data⟩ (by decide)⟩

/-- C2: over every fetched feed, get_latest_release_url computes exactly
the spec-side first-match resolution: tags in feed order with the
prerelease and draft policy, assets in listed order within an eligible tag,
the first asset whose lower-cased filename contains every lower-cased
keyword as a substring wins immediately, and the url, filename and tag
name of that asset and tag are returned; no re-sorting occurs. -/
theorem release_resolution_first_match :
    ∀ (keywords : List (List Char)) (prerelease : Bool) (tags : List Tag),
      get_latest_release_url keywords prerelease (some tags)
        = resolve_spec keywords prerelease tags := by
  intro kw pre tags
  have hsearch : ∀ ts : List Tag, release_search kw pre ts = resolve_spec kw pre ts := by
    intro ts
    induction ts with
    | nil => rfl
    | cons t rest ih =>
      rw [release_search, resolve_spec, List.findSome?_cons, ← resolve_spec, ← ih,
        find_matching_asset_eq]
      by_cases hs : tag_skipped pre t = true
      · have hs2 : ((!pre && t.prerelease) || t.draft) = true := hs
        rw [if_pos hs, if_pos hs2]
      · have hs2 : ¬ ((!pre && t.prerelease) || t.draft) = true := hs
        rw [if_neg hs, if_neg hs2]
        cases hf : t.assets.find?
            (fun a => kw.all (fun k => decide (lowerStr k <:+: lowerStr a.name))) with
        | none => rfl
        | some a => rfl
  cases tags with
  | nil => rfl
  | cons t rest =>
    rw [get_latest_release_url, release_body, if_neg (by simp), hsearch]
    cases hr : resolve_spec kw pre (t :: rest) with
    | none => rfl
    | some r => rfl

/-- C6: get_latest_release_url is a total function of its inputs (the
modelled body never lets an exception escape: every raise is caught and
turned into the triple of Nones, modelled as none), and it returns the
not-found outcome exactly when the fetch failed, the feed was empty, or no
eligible tag carried an asset matching all keywords; an empty feed and a
no-match feed are indistinguishable to the caller. -/
theorem get_latest_release_url_notfound :
    ∀ (keywords : List (List Char)) (prerelease : Bool),
      get_latest_release_url keywords prerelease none = none ∧
      get_latest_release_url keywords prerelease (some []) = none ∧
      (∀ tags, release_search keywords prerelease tags = none →
        get_latest_release_url keywords prerelease (some tags) = none) ∧
      (∀ fetch, get_latest_release_url keywords prerelease fetch = none ↔
        fetch = none ∨ ∃ tags, fetch = some tags ∧
          release_search keywords prerelease tags = none) := by
  intro kw pre
  have hget : ∀ tags, get_latest_release_url kw pre (some tags) =
      (match release_search kw pre tags with
      | some r => some r
      | none => none) := by
    intro tags
    cases tags with
    | nil => rfl
    | cons t rest =>
      rw [get_latest_release_url, release_body, if_neg (by simp)]
      cases hr : release_search kw pre (t :: rest) with
      | none => rfl
      | some r => rfl
  refine ⟨rfl, rfl, ?_, ?_⟩
  · intro tags h
    rw [hget tags, h]
  · intro fetch
    cases fetch with
    | none => simp [get_latest_release_url]
    | some tags =>
      rw [hget tags]
      cases hr : release_search kw pre tags with
      | none => simp [hr]
      | some r => simp [hr]

/-- Witness for get_latest_release_url_notfound: a one-tag feed whose only
asset matches no keyword resolves to the not-found triple. -/
theorem get_latest_release_url_notfound_witness :
    get_latest_release_url ["maa".data] true
        (some [⟨some "v1".data, none, false, false, [⟨"other.zip".data, "u".data⟩]⟩])
      = none :=
  (get_latest_release_url_notfound ["maa".data] true).2.2.1
    [⟨some "v1".data, none, false, false, [⟨"other.zip".data, "u".data⟩]⟩] (by decide)

end SetupWorkspace
